import Mathlib

/-
Verification of the memory-zone signal-handling core
(runtime/mercury_memory_handlers.c).

The development below is a shallow embedding of the fault-routing and
zone-growth code of that file.  Machine addresses and sizes are modelled
as `Nat`; the registry of memory zones is an explicit list; the global
configuration that the C code reads (the alignment unit `unit`,
`sizeof(Word)`, the success or failure of `mprotect`, the output of the
external trace-report collaborators, and the build capabilities) is an
explicit `Env` record threaded through every function.  Functions that
terminate the process (`exit(1)` / `_exit(1)`) are modelled with an
explicit `Outcome.exits` constructor carrying the exit status and the
list of diagnostic writes performed before exiting; since `_exit` never
returns, code following such a call is dead and has no counterpart in
the embedding.  Debug-only logging guarded by `memdebug` goes to stderr
and affects no result or state, so it is elided.
-/

namespace Mercury

/-- Modelled from the spec: `round_up(amount, align)` rounds `amount` up to
the nearest multiple of `align` (that function is defined outside this file;
the in-source comment states that `align` must be a power of 2, for which
the bit-masking form agrees with this arithmetic form). -/
def round_up (amount align : Nat) : Nat :=
  ((amount + align - 1) / align) * align

/-- Hexadecimal rendering of a machine word, as produced by the `%lx`
conversion used in the diagnostic messages. -/
def hexStr (n : Nat) : String :=
  String.mk (Nat.toDigits 16 n)

/-- The abstract platform context handed to the handlers.  The only
information this core ever extracts from it is an optional program
counter (`PC_ACCESS`), so it is modelled as that option. -/
abbrev SigContext := Option Nat

/-- Translation of `explain_context`: renders the program-counter line
when `PC_ACCESS` is available, the empty string otherwise. -/
def explain_context (ctx : SigContext) : String :=
  match ctx with
  | some pc => "PC at signal: " ++ toString pc ++ " (" ++ hexStr pc ++ ")\n"
  | none => ""

/-- The `address involved: %p` line printed by the signal handlers. -/
def addressLine (a : Nat) : String :=
  "address involved: 0x" ++ hexStr a ++ "\n"

/-- The two growth policies a zone can be bound to (in the C code the
zone stores a function pointer; only these two functions are ever
assigned). -/
inductive Handler where
  | defaultHandler
  | nullHandler
deriving DecidableEq, Repr

/-- Modelled from the spec: the `MemoryZone` descriptor (declared in
mercury_memory_zones.h, outside this file).  Only the fields this core
reads or writes are included; `next` is represented by the position in
the registry list. -/
structure MemoryZone where
  name : String
  id : Int
  min : Nat
  top : Nat
  hardmax : Nat
  redzone : Nat
  handler : Handler
deriving DecidableEq, Repr

/-- The global configuration and external-collaborator behaviour the C
code reads: the alignment unit `unit`, `sizeof(Word)`, the outcome of
each `mprotect` call (keyed by start address and length), the `errno`
text appended by `perror`, the writes performed by the external trace
collaborators (`MR_trace_report`, `MR_trace_report_raw`,
`dump_prev_locations`), the `MR_LOWLEVEL_DEBUG` build capability together
with the recorded location-history labels
(`dumpstack_zone` entries `0 .. dumpindex`), and the results of the
system calls made by `setup_signal`. -/
structure Env where
  unit : Nat
  wordSize : Nat
  mprotectOk : Nat → Nat → Bool
  errnoMsg : String
  traceReport : List String
  prevLocations : List String
  lowLevelDebug : Bool
  dumpLabels : List String
  sigemptysetOk : Bool
  sigactionBusOk : Bool
  sigactionSegvOk : Bool

/-- Result of running a piece of this subsystem: either it returns a
value to its caller, or it terminates the process with an exit status
after performing a list of diagnostic writes. -/
inductive Outcome (α : Type) where
  | ret (val : α)
  | exits (status : Nat) (output : List String)
deriving DecidableEq, Repr

/-- Counts how many leading elements of the list equal `s` (the inner
scanning loop of `print_dump_stack`). -/
def countRun (s : String) : List String → Nat
  | [] => 0
  | t :: rest => if t = s then countRun s rest + 1 else 0

/-- Translation of the run-compression loop of `print_dump_stack`
(`MR_LOWLEVEL_DEBUG` build): each maximal run of consecutive equal
labels produces one line, `"<label> * <count>\n"` when the run has
length greater than 1 and `"<label>\n"` otherwise. -/
def dumpLines (l : List String) : List String :=
  match l with
  | [] => []
  | s :: rest =>
    (if countRun s rest + 1 > 1 then
       s ++ " * " ++ toString (countRun s rest + 1) ++ "\n"
     else
       s ++ "\n")
    :: dumpLines (rest.drop (countRun s rest))
termination_by l.length
decreasing_by
  simp only [List.length_drop, List.length_cons]
  omega

/-- Translation of `print_dump_stack`: in `MR_LOWLEVEL_DEBUG` builds the
header, the compressed location-history lines and the trailer; otherwise
the one-line hint. -/
def print_dump_stack (env : Env) : List String :=
  if env.lowLevelDebug then
    "A dump of the det stack follows\n\n"
      :: (dumpLines env.dumpLabels ++ ["\nend of stack dump\n"])
  else
    ["You can get a stack dump by using `--low-level-debug\x27\n"]

/-- Translation of `fatal_abort`: writes the main message, the
`explain_context` string, the raw trace report, optionally the stack
dump, and terminates via `_exit(1)`.  The returned pair is (the list of
writes, the exit status). -/
def fatal_abort (env : Env) (ctx : SigContext) (main_msg : String)
    (dump : Bool) : List String × Nat :=
  (main_msg :: explain_context ctx
     :: (env.traceReport ++ (if dump then print_dump_stack env else [])),
   1)

/-- Translation of `default_handler`: round the fault address plus one
word up to the alignment unit; if the result is within `hardmax`,
unprotect `[redzone, new_zone)` (exiting with status 1 on `mprotect`
failure, after the `perror` write) and advance `redzone`; otherwise
invoke `fatal_abort` with the zone-overflow message.  The trailing
`return FALSE` of the C function follows a call to the non-returning
`fatal_abort` and is dead code. -/
def default_handler (env : Env) (fault_addr : Nat) (zone : MemoryZone)
    (ctx : SigContext) : Outcome (Bool × MemoryZone) :=
  let new_zone := round_up (fault_addr + env.wordSize) env.unit
  if new_zone ≤ zone.hardmax then
    let zone_size := new_zone - zone.redzone
    if env.mprotectOk zone.redzone zone_size then
      .ret (true, { zone with redzone := new_zone })
    else
      .exits 1 ["Mercury runtime: cannot unprotect " ++ zone.name ++ "#"
                  ++ toString zone.id ++ " zone: " ++ env.errnoMsg ++ "\n"]
  else
    let buf := "\nMercury runtime: memory zone " ++ zone.name ++ "#"
                 ++ toString zone.id ++ " overflowed\n"
    let r := fatal_abort env ctx buf true
    .exits r.2 r.1

/-- Translation of `null_handler`: returns FALSE and leaves the zone
untouched. -/
def null_handler (_env : Env) (_fault_addr : Nat) (zone : MemoryZone)
    (_ctx : SigContext) : Outcome (Bool × MemoryZone) :=
  .ret (false, zone)

/-- Dispatch through the zone's stored handler pointer. -/
def runHandler (env : Env) (fault_addr : Nat) (zone : MemoryZone)
    (ctx : SigContext) : Outcome (Bool × MemoryZone) :=
  match zone.handler with
  | .defaultHandler => default_handler env fault_addr zone ctx
  | .nullHandler => null_handler env fault_addr zone ctx

/-- Translation of `try_munprotect`: walk the registry list in order;
the first zone with `redzone ≤ fault_addr ≤ top` receives the fault and
its handler result is returned (with the registry updated at that zone);
if no zone contains the address the routing returns FALSE with the
registry unchanged. -/
def try_munprotect (env : Env) (addr : Nat) (zones : List MemoryZone)
    (ctx : SigContext) : Outcome (Bool × List MemoryZone) :=
  match zones with
  | [] => .ret (false, [])
  | z :: rest =>
    if z.redzone ≤ addr ∧ addr ≤ z.top then
      match runHandler env addr z ctx with
      | .ret (b, z2) => .ret (b, z2 :: rest)
      | .exits s o => .exits s o
    else
      match try_munprotect env addr rest ctx with
      | .ret (b, rest2) => .ret (b, z :: rest2)
      | .exits s o => .exits s o

/-- Signal numbers (values as on the original target; the code only
compares them for equality). -/
def SIGSEGV : Nat := 11

/-- Signal number for bus errors. -/
def SIGBUS : Nat := 7

/-- The fields of `siginfo_t` this code reads. -/
structure SigInfo where
  si_signo : Nat
  si_code : Int
  si_addr : Nat
deriving DecidableEq, Repr

/-- Cause line printed by `explain_segv` for a positive `si_code`
(SEGV_MAPERR = 1, SEGV_ACCERR = 2 on the original target). -/
def segv_cause (code : Int) : String :=
  if code = 1 then "address not mapped to object\n"
  else if code = 2 then "bad permissions for mapped object\n"
  else "unknown\n"

/-- Translation of `explain_segv`: the banner, and when `info` is
present with positive `si_code`, the cause, the context line and the
faulting address. -/
def explain_segv (info : Option SigInfo) (ctx : SigContext) : List String :=
  ["\n*** Mercury runtime: ", "caught segmentation violation ***\n"]
    ++ (match info with
        | none => []
        | some i =>
          if i.si_code > 0 then
            ["cause: ", segv_cause i.si_code, explain_context ctx,
             addressLine i.si_addr]
          else [])

/-- Translation of `complex_segvhandler` (HAVE_SIGINFO_T build,
`memdebug` off): sanity-check the delivery, route the fault, return to
the interrupted code when it was handled, and otherwise print the
diagnostics and exit with status 1. -/
def complex_segvhandler (env : Env) (sig : Nat) (info : Option SigInfo)
    (zones : List MemoryZone) (ctx : SigContext) :
    Outcome (List MemoryZone) :=
  match info with
  | none =>
    .exits 1 ["\n*** Mercury runtime: ",
              "caught strange segmentation violation ***\n"]
  | some i =>
    if sig ≠ SIGSEGV ∨ i.si_signo ≠ SIGSEGV then
      .exits 1 ["\n*** Mercury runtime: ",
                "caught strange segmentation violation ***\n"]
    else
      match try_munprotect env i.si_addr zones ctx with
      | .ret (true, zones2) => .ret zones2
      | .ret (false, _) =>
        .exits 1 (explain_segv (some i) ctx ++ env.traceReport
                    ++ print_dump_stack env ++ env.prevLocations
                    ++ ["exiting from signal handler\n"])
      | .exits s o => .exits s o

/-- Cause line printed by `complex_bushandler` for a positive `si_code`
(BUS_ADRALN = 1, BUS_ADRERR = 2, BUS_OBJERR = 3 on the original
target). -/
def bus_cause (code : Int) : String :=
  if code = 1 then "invalid address alignment\n"
  else if code = 2 then "non-existent physical address\n"
  else if code = 3 then "object specific hardware error\n"
  else "unknown\n"

/-- Translation of `complex_bushandler`: always terminates with status
1, after the banner, the optional cause/context/address lines and the
trace reports.  The returned pair is (writes, exit status). -/
def complex_bushandler (env : Env) (sig : Nat) (info : Option SigInfo)
    (ctx : SigContext) : List String × Nat :=
  match info with
  | none =>
    (["\n*** Mercury runtime: ", "caught strange bus error ***\n"], 1)
  | some i =>
    if sig ≠ SIGBUS ∨ i.si_signo ≠ SIGBUS then
      (["\n*** Mercury runtime: ", "caught strange bus error ***\n"], 1)
    else
      (["\n*** Mercury runtime: ", "caught bus error ***\n"]
         ++ (if i.si_code > 0 then
               ["cause: ", bus_cause i.si_code, explain_context ctx,
                addressLine i.si_addr]
             else [])
         ++ env.traceReport ++ print_dump_stack env ++ env.prevLocations
         ++ ["exiting from signal handler\n"],
       1)

/-- Translation of `setup_signal` (HAVE_SIGINFO_T build): install the
SIGBUS and SIGSEGV actions; any system-call failure is reported via
`perror` and the process exits with status 1. -/
def setup_signal (env : Env) : Outcome Unit :=
  if env.sigemptysetOk = false then
    .exits 1 ["Mercury runtime: cannot set clear signal mask: "
                ++ env.errnoMsg ++ "\n"]
  else if env.sigactionBusOk = false then
    .exits 1 ["Mercury runtime: cannot set SIGBUS handler: "
                ++ env.errnoMsg ++ "\n"]
  else if env.sigactionSegvOk = false then
    .exits 1 ["Mercury runtime: cannot set SIGSEGV handler: "
                ++ env.errnoMsg ++ "\n"]
  else
    .ret ()

/-- A debug-capability environment (`MR_LOWLEVEL_DEBUG`) with a recorded
location history containing a run of three equal labels. -/
def envD : Env :=
  { unit := 0x1000, wordSize := 8, mprotectOk := fun _ _ => true,
    errnoMsg := "Operation not permitted", traceReport := [],
    prevLocations := [], lowLevelDebug := true,
    dumpLabels := ["foo", "foo", "foo", "bar", "foo"],
    sigemptysetOk := true, sigactionBusOk := true,
    sigactionSegvOk := true }

/-- The invariant chain claimed by the specification for every zone:
`min ≤ redzone ≤ top ≤ hardmax` (stated from the spec's words, for
comparison against what the code maintains). -/
abbrev zoneInvSpec (z : MemoryZone) : Prop :=
  z.min ≤ z.redzone ∧ z.redzone ≤ z.top ∧ z.top ≤ z.hardmax

/-- The invariant the code actually maintains: `min ≤ redzone ≤ hardmax`
and `top ≤ hardmax` (the growth handler clamps the new redzone only by
`hardmax`, never by `top`). -/
abbrev zoneInv (z : MemoryZone) : Prop :=
  z.min ≤ z.redzone ∧ z.redzone ≤ z.hardmax ∧ z.top ≤ z.hardmax

/-- What one routing step can do to one registry entry: the redzone may
only move up, every other field is untouched, and a moved redzone stays
within the zone's hard ceiling. -/
abbrev ZStep (z z2 : MemoryZone) : Prop :=
  z.redzone ≤ z2.redzone ∧ z2.min = z.min ∧ z2.top = z.top ∧
    z2.hardmax = z.hardmax ∧ (z2.redzone = z.redzone ∨ z2.redzone ≤ z.hardmax)

/-- Run-length encoding of a list, written as a specification (a right
fold, structurally unlike the scanning loop of `print_dump_stack`): each
maximal run of consecutive equal elements becomes one (element, count)
pair. -/
def rle : List String → List (String × Nat)
  | [] => []
  | x :: xs =>
    match rle xs with
    | [] => [(x, 1)]
    | (y, c) :: tl =>
      if x = y then (y, c + 1) :: tl else (x, 1) :: (y, c) :: tl

/-- Formatting of one run, per the spec: `"<label> * <count>"` for runs
longer than 1, the bare label otherwise. -/
def fmtRun (p : String × Nat) : String :=
  if p.2 > 1 then p.1 ++ " * " ++ toString p.2 ++ "\n" else p.1 ++ "\n"

/-- Holds when the outcome, if it terminates the process, does so with
exit status 1. -/
def exitsWithOne {α : Type} : Outcome α → Prop
  | .ret _ => True
  | .exits s _ => s = 1

instance {α : Type} (o : Outcome α) : Decidable (exitsWithOne o) := by
  unfold exitsWithOne; cases o <;> infer_instance

/-- Tests whether a handler outcome is a normal return carrying FALSE. -/
def Outcome.retFalse {α : Type} : Outcome (Bool × α) → Bool
  | .ret (false, _) => true
  | .ret (true, _) => false
  | .exits _ _ => false

/-- The zone of Scenario A of the specification: `"detstack"#0` with
`min = 0x1000`, `top = 0x3000`, `hardmax = 0x9000`, current
`redzone = 0x2F00`, bound to the default growth policy. -/
def zoneA : MemoryZone :=
  { name := "detstack", id := 0, min := 0x1000, top := 0x3000,
    hardmax := 0x9000, redzone := 0x2F00, handler := .defaultHandler }

/-- The same region bound to the refusing (null) policy. -/
def zoneN : MemoryZone :=
  { zoneA with handler := .nullHandler }

/-- A concrete environment: alignment unit `0x1000`, 8-byte words, every
`mprotect` call succeeding, no debug-dump capability. -/
def envA : Env :=
  { unit := 0x1000, wordSize := 8, mprotectOk := fun _ _ => true,
    errnoMsg := "Operation not permitted", traceReport := [],
    prevLocations := [], lowLevelDebug := false, dumpLabels := [],
    sigemptysetOk := true, sigactionBusOk := true,
    sigactionSegvOk := true }

theorem round_up_ge (x align : Nat) (h : 0 < align) : x ≤ round_up x align := by
  unfold round_up
  rw [Nat.mul_comm]
  have hdm := Nat.div_add_mod (x + align - 1) align
  have hm : (x + align - 1) % align < align := Nat.mod_lt _ h
  omega

theorem default_handler_ret_eq (env : Env) (a : Nat) (z : MemoryZone)
    (ctx : SigContext) (b : Bool) (z2 : MemoryZone)
    (h : default_handler env a z ctx = .ret (b, z2)) :
    b = true ∧ z2 = { z with redzone := round_up (a + env.wordSize) env.unit } ∧
    round_up (a + env.wordSize) env.unit ≤ z.hardmax ∧
    env.mprotectOk z.redzone (round_up (a + env.wordSize) env.unit - z.redzone) = true := by
  simp only [default_handler] at h
  split at h
  next hle =>
    split at h
    next hmp =>
      simp only [Outcome.ret.injEq, Prod.mk.injEq] at h
      exact ⟨h.1.symm, h.2.symm, hle, hmp⟩
    next => simp at h
  next => simp at h

/-- C2: a fault inside `[redzone, top]` whose rounded boundary stays
within `hardmax`, with the protection change succeeding, makes
`default_handler` return TRUE and advance `redzone` to exactly the
rounded boundary, with `top` (and every other field) unchanged. -/
theorem default_handler_growth (env : Env) (a : Nat) (z : MemoryZone)
    (ctx : SigContext)
    (h1 : z.redzone ≤ a) (h2 : a ≤ z.top)
    (h3 : round_up (a + env.wordSize) env.unit ≤ z.hardmax)
    (h4 : env.mprotectOk z.redzone
            (round_up (a + env.wordSize) env.unit - z.redzone) = true) :
    default_handler env a z ctx =
      .ret (true, { z with redzone := round_up (a + env.wordSize) env.unit }) := by
  simp only [default_handler]
  rw [if_pos h3, if_pos h4]

/-- C2 witness: Scenario A of the specification, zone `"detstack"#0`,
fault at 0x2F50 with redzone 0x2F00 yields handled = TRUE and
redzone = 0x3000. -/
theorem default_handler_growth_witness :
    zoneA.redzone ≤ 0x2F50 ∧ (0x2F50 : Nat) ≤ zoneA.top ∧
    round_up (0x2F50 + envA.wordSize) envA.unit ≤ zoneA.hardmax ∧
    envA.mprotectOk zoneA.redzone
      (round_up (0x2F50 + envA.wordSize) envA.unit - zoneA.redzone) = true ∧
    default_handler envA 0x2F50 zoneA none =
      .ret (true, { zoneA with redzone := 0x3000 }) := by
  refine ⟨by decide, by decide, by decide, rfl, ?_⟩
  have h := default_handler_growth envA 0x2F50 zoneA none (by decide)
    (by decide) (by decide) rfl
  exact h.trans (by decide)

/-- C3: the `hardmax` comparison is inclusive: a rounded boundary equal
to `hardmax` is a valid growth that fills the zone exactly to its
ceiling, while a strictly greater boundary takes the zone-overflow abort
path, which terminates the process with status 1 and a diagnostic whose
first line names the zone's name and id. -/
theorem default_handler_hardmax_tie (env : Env) (a : Nat) (z : MemoryZone)
    (ctx : SigContext) :
    (round_up (a + env.wordSize) env.unit = z.hardmax →
      env.mprotectOk z.redzone (z.hardmax - z.redzone) = true →
      default_handler env a z ctx = .ret (true, { z with redzone := z.hardmax })) ∧
    (z.hardmax < round_up (a + env.wordSize) env.unit →
      default_handler env a z ctx =
        .exits 1 (("\nMercury runtime: memory zone " ++ z.name ++ "#"
            ++ toString z.id ++ " overflowed\n")
          :: explain_context ctx
          :: (env.traceReport ++ print_dump_stack env))) := by
  constructor
  · intro he hmp
    simp only [default_handler]
    rw [he, if_pos (le_refl z.hardmax), if_pos hmp]
  · intro hgt
    simp only [default_handler]
    rw [if_neg (not_le.mpr hgt)]
    rfl

/-- C3 witness: Scenarios B and C of the specification on zone
`"detstack"#0` with hardmax 0x9000: a fault at 0x8FF0 rounds to exactly
0x9000 and succeeds; a fault at 0x9000 rounds past the ceiling and takes
the overflow abort with status 1 and the zone-naming diagnostic. -/
theorem default_handler_hardmax_tie_witness :
    round_up (0x8FF0 + envA.wordSize) envA.unit = zoneA.hardmax ∧
    envA.mprotectOk zoneA.redzone (zoneA.hardmax - zoneA.redzone) = true ∧
    default_handler envA 0x8FF0 zoneA none =
      .ret (true, { zoneA with redzone := 0x9000 }) ∧
    zoneA.hardmax < round_up (0x9000 + envA.wordSize) envA.unit ∧
    default_handler envA 0x9000 zoneA none =
      .exits 1 (("\nMercury runtime: memory zone " ++ zoneA.name ++ "#"
          ++ toString zoneA.id ++ " overflowed\n")
        :: explain_context none
        :: (envA.traceReport ++ print_dump_stack envA)) := by
  refine ⟨by decide, rfl, ?_, by decide, ?_⟩
  · have h := (default_handler_hardmax_tie envA 0x8FF0 zoneA none).1 (by decide) rfl
    exact h.trans (by decide)
  · exact (default_handler_hardmax_tie envA 0x9000 zoneA none).2 (by decide)

/-- C9: `null_handler` returns FALSE for every input and leaves the zone
untouched; consequently a fault routed to a registry whose zones are all
bound to the refusal policy is reported unhandled with the registry
unchanged. -/
theorem null_handler_refuses (env : Env) (a : Nat) (z : MemoryZone)
    (ctx : SigContext) (zones : List MemoryZone) :
    null_handler env a z ctx = .ret (false, z) ∧
    ((∀ y ∈ zones, y.handler = Handler.nullHandler) →
      try_munprotect env a zones ctx = .ret (false, zones)) := by
  refine ⟨rfl, ?_⟩
  induction zones with
  | nil => intro _; rfl
  | cons y rest ih =>
    intro hall
    have hy : y.handler = Handler.nullHandler := hall y (List.mem_cons_self y rest)
    have hrest : ∀ w ∈ rest, w.handler = Handler.nullHandler :=
      fun w hw => hall w (List.mem_cons_of_mem y hw)
    simp only [try_munprotect]
    by_cases hc : y.redzone ≤ a ∧ a ≤ y.top
    · rw [if_pos hc]
      simp [runHandler, hy, null_handler]
    · rw [if_neg hc, ih hrest]

/-- C9 witness: the refusal-policy zone `"detstack"#0` reports a fault
at 0x2F50 (inside its protected band) unhandled. -/
theorem null_handler_refuses_witness :
    null_handler envA 0x2F50 zoneN none = .ret (false, zoneN) ∧
    (∀ y ∈ [zoneN], y.handler = Handler.nullHandler) ∧
    try_munprotect envA 0x2F50 [zoneN] none = .ret (false, [zoneN]) :=
  ⟨(null_handler_refuses envA 0x2F50 zoneN none [zoneN]).1, by decide,
   (null_handler_refuses envA 0x2F50 zoneN none [zoneN]).2 (by decide)⟩

/-- C10: `default_handler` never returns FALSE: its only normal return
carries TRUE, because both failure branches terminate the process, which
makes the trailing `return FALSE` of the C function unreachable. -/
theorem default_handler_no_ret_fail (env : Env) (a : Nat) (z : MemoryZone)
    (ctx : SigContext) :
    Outcome.retFalse (default_handler env a z ctx) = false := by
  simp only [default_handler]
  split
  · split
    · rfl
    · rfl
  · rfl

theorem runHandler_ret_fields (env : Env) (a : Nat) (z : MemoryZone)
    (ctx : SigContext) (b : Bool) (z2 : MemoryZone)
    (hu : 0 < env.unit) (hra : z.redzone ≤ a)
    (h : runHandler env a z ctx = .ret (b, z2)) : ZStep z z2 := by
  unfold runHandler at h
  split at h
  · obtain ⟨hb, hz2, hle, _⟩ := default_handler_ret_eq env a z ctx b z2 h
    subst hz2
    refine ⟨?_, rfl, rfl, rfl, Or.inr hle⟩
    exact le_trans hra (le_trans (Nat.le_add_right a env.wordSize)
      (round_up_ge (a + env.wordSize) env.unit hu))
  · simp only [null_handler, Outcome.ret.injEq, Prod.mk.injEq] at h
    obtain ⟨hb, hz2⟩ := h
    subst hz2
    exact ⟨le_refl _, rfl, rfl, rfl, Or.inl rfl⟩

theorem try_munprotect_pointwise (env : Env) (addr : Nat)
    (zones : List MemoryZone) (ctx : SigContext) (hu : 0 < env.unit) :
    ∀ (b : Bool) (zones2 : List MemoryZone),
      try_munprotect env addr zones ctx = .ret (b, zones2) →
      List.Forall₂ ZStep zones zones2 := by
  induction zones with
  | nil =>
    intro b zones2 h
    simp only [try_munprotect, Outcome.ret.injEq, Prod.mk.injEq] at h
    rw [← h.2]
    exact List.Forall₂.nil
  | cons z rest ih =>
    intro b zones2 h
    simp only [try_munprotect] at h
    by_cases hc : z.redzone ≤ addr ∧ addr ≤ z.top
    · rw [if_pos hc] at h
      cases hr : runHandler env addr z ctx with
      | ret p =>
        obtain ⟨b1, z2⟩ := p
        rw [hr] at h
        simp only [Outcome.ret.injEq, Prod.mk.injEq] at h
        rw [← h.2]
        exact List.Forall₂.cons
          (runHandler_ret_fields env addr z ctx b1 z2 hu hc.1 hr)
          (List.forall₂_same.mpr (fun x _ => ⟨le_refl _, rfl, rfl, rfl, Or.inl rfl⟩))
      | exits s o =>
        rw [hr] at h
        simp at h
    · rw [if_neg hc] at h
      cases hrec : try_munprotect env addr rest ctx with
      | ret p =>
        obtain ⟨b1, rest2⟩ := p
        rw [hrec] at h
        simp only [Outcome.ret.injEq, Prod.mk.injEq] at h
        rw [← h.2]
        exact List.Forall₂.cons ⟨le_refl _, rfl, rfl, rfl, Or.inl rfl⟩
          (ih b1 rest2 hrec)
      | exits s o =>
        rw [hrec] at h
        simp at h

/-- C1 (amended): the routing and growth operations preserve
`min ≤ redzone ≤ hardmax` and `top ≤ hardmax` for every registered zone
(the code clamps a grown redzone by `hardmax`, not by `top`; see the
counterexample for the spec's stronger `redzone ≤ top` chain). -/
theorem zone_inv_preserved (env : Env) (addr : Nat)
    (zones : List MemoryZone) (ctx : SigContext) (b : Bool)
    (zones2 : List MemoryZone)
    (hu : 0 < env.unit)
    (hinv : ∀ z ∈ zones, zoneInv z)
    (h : try_munprotect env addr zones ctx = .ret (b, zones2)) :
    ∀ z2 ∈ zones2, zoneInv z2 := by
  have hf := try_munprotect_pointwise env addr zones ctx hu b zones2 h
  clear h
  revert hinv
  induction hf with
  | nil =>
    intro _ z2 hz2
    simp at hz2
  | cons hstep htail ihf =>
    intro hinv z2 hz2
    rcases List.mem_cons.mp hz2 with rfl | hz2m
    · have hza := hinv _ (List.mem_cons_self _ _)
      obtain ⟨h1, h2, h3, h4, h5⟩ := hstep
      refine ⟨?_, ?_, ?_⟩
      · rw [h2]
        exact le_trans hza.1 h1
      · rcases h5 with he | hle
        · rw [he, h4]
          exact hza.2.1
        · rw [h4]
          exact hle
      · rw [h3, h4]
        exact hza.2.2
    · exact ihf (fun y hy => hinv y (List.mem_cons_of_mem _ hy)) z2 hz2m

/-- C1 witness: Scenario A preserves the invariant — starting from
`"detstack"#0` with redzone 0x2F00, routing the fault at 0x2F50 yields a
registry whose only zone still satisfies the invariant. -/
theorem zone_inv_preserved_witness :
    0 < envA.unit ∧ (∀ z ∈ [zoneA], zoneInv z) ∧
    try_munprotect envA 0x2F50 [zoneA] none =
      .ret (true, [{ zoneA with redzone := 0x3000 }]) ∧
    (∀ z2 ∈ [({ zoneA with redzone := 0x3000 } : MemoryZone)], zoneInv z2) :=
  ⟨by decide, by decide, by decide,
   zone_inv_preserved envA 0x2F50 [zoneA] none true
     [{ zoneA with redzone := 0x3000 }] (by decide) (by decide) (by decide)⟩

/-- C1 counterexample: the spec's chain `min ≤ redzone ≤ top ≤ hardmax`
is not preserved.  Zone `"detstack"#0` satisfies it, yet routing a fault
at its inclusive upper bound 0x3000 (accepted because
`redzone ≤ 0x3000 ≤ top`) grows the redzone to
`round_up(0x3000 + 8, 0x1000) = 0x4000`, strictly above `top = 0x3000`. -/
theorem zone_inv_spec_violated :
    zoneInvSpec zoneA ∧
    try_munprotect envA 0x3000 [zoneA] none =
      .ret (true, [{ zoneA with redzone := 0x4000 }]) ∧
    ¬ zoneInvSpec { zoneA with redzone := 0x4000 } :=
  ⟨by decide, by decide, by decide⟩

/-- C5: the redzone is monotonically non-decreasing: a successful
`default_handler` growth under the router's matching precondition moves
the redzone up, and a full routing step never decreases any registry
entry's redzone (the null policy and non-matching traversal leave every
zone untouched). -/
theorem redzone_monotone (env : Env) (addr : Nat)
    (zones : List MemoryZone) (ctx ctx2 : SigContext) (z : MemoryZone)
    (p : Bool × MemoryZone) (b : Bool) (zones2 : List MemoryZone)
    (hu : 0 < env.unit) :
    (z.redzone ≤ addr → default_handler env addr z ctx2 = .ret p →
      z.redzone ≤ p.2.redzone) ∧
    (try_munprotect env addr zones ctx = .ret (b, zones2) →
      List.Forall₂ (fun y y2 => y.redzone ≤ y2.redzone) zones zones2) := by
  constructor
  · intro hra h
    obtain ⟨hb, hz2, hle, _⟩ := default_handler_ret_eq env addr z ctx2 p.1 p.2 h
    rw [hz2]
    exact le_trans hra (le_trans (Nat.le_add_right addr env.wordSize)
      (round_up_ge (addr + env.wordSize) env.unit hu))
  · intro h
    exact List.Forall₂.imp (fun _ _ hs => hs.1)
      (try_munprotect_pointwise env addr zones ctx hu b zones2 h)

/-- C5 witness: Scenario A again — the grown redzone 0x3000 is above the
old redzone 0x2F00, both for the bare handler and across the router. -/
theorem redzone_monotone_witness :
    0 < envA.unit ∧ zoneA.redzone ≤ (0x2F50 : Nat) ∧
    default_handler envA 0x2F50 zoneA none =
      .ret (true, { zoneA with redzone := 0x3000 }) ∧
    zoneA.redzone ≤ (true, ({ zoneA with redzone := 0x3000 } : MemoryZone)).2.redzone ∧
    try_munprotect envA 0x2F50 [zoneA] none =
      .ret (true, [{ zoneA with redzone := 0x3000 }]) ∧
    List.Forall₂ (fun y y2 => y.redzone ≤ y2.redzone) [zoneA]
      [({ zoneA with redzone := 0x3000 } : MemoryZone)] := by
  refine ⟨by decide, by decide, by decide, ?_, by decide, ?_⟩
  · exact (redzone_monotone envA 0x2F50 [zoneA] none none zoneA
      (true, { zoneA with redzone := 0x3000 }) true
      [{ zoneA with redzone := 0x3000 }] (by decide)).1 (by decide) (by decide)
  · exact (redzone_monotone envA 0x2F50 [zoneA] none none zoneA
      (true, { zoneA with redzone := 0x3000 }) true
      [{ zoneA with redzone := 0x3000 }] (by decide)).2 (by decide)

/-- C4: the router walks the registry in insertion order; the first zone
whose inclusive range `[redzone, top]` contains the fault address
receives it and its handler's result is the router's result (so an
address on a boundary shared by two zones goes to the first-registered
one), and when no zone contains the address the router returns FALSE
with the registry unchanged. -/
theorem try_munprotect_first_match (env : Env) (addr : Nat)
    (zones : List MemoryZone) (ctx : SigContext) :
    (∃ pre z post, zones = pre ++ z :: post ∧
      (∀ y ∈ pre, ¬(y.redzone ≤ addr ∧ addr ≤ y.top)) ∧
      (z.redzone ≤ addr ∧ addr ≤ z.top) ∧
      try_munprotect env addr zones ctx =
        (match runHandler env addr z ctx with
         | .ret (b, z2) => .ret (b, pre ++ z2 :: post)
         | .exits s o => .exits s o)) ∨
    ((∀ z ∈ zones, ¬(z.redzone ≤ addr ∧ addr ≤ z.top)) ∧
      try_munprotect env addr zones ctx = .ret (false, zones)) := by
  induction zones with
  | nil => exact Or.inr ⟨by simp, rfl⟩
  | cons z rest ih =>
    by_cases hc : z.redzone ≤ addr ∧ addr ≤ z.top
    · refine Or.inl ⟨[], z, rest, rfl, by simp, hc, ?_⟩
      simp only [try_munprotect]
      rw [if_pos hc]
      cases hr : runHandler env addr z ctx with
      | ret p =>
        obtain ⟨b, z2⟩ := p
        rfl
      | exits s o => rfl
    · rcases ih with ⟨pre, z0, post, heq, hpre, hz0, hres⟩ | ⟨hall, hres⟩
      · refine Or.inl ⟨z :: pre, z0, post, by rw [heq]; rfl, ?_, hz0, ?_⟩
        · intro y hy
          rcases List.mem_cons.mp hy with rfl | hym
          · exact hc
          · exact hpre y hym
        · simp only [try_munprotect]
          rw [if_neg hc, hres]
          cases hr : runHandler env addr z0 ctx with
          | ret p =>
            obtain ⟨b, z2⟩ := p
            rfl
          | exits s o => rfl
      · refine Or.inr ⟨?_, ?_⟩
        · intro y hy
          rcases List.mem_cons.mp hy with rfl | hym
          · exact hc
          · exact hall y hym
        · simp only [try_munprotect]
          rw [if_neg hc, hres]

theorem exitsWithOne_default_handler (env : Env) (a : Nat) (z : MemoryZone)
    (ctx : SigContext) : exitsWithOne (default_handler env a z ctx) := by
  simp only [default_handler]
  split
  · split
    · exact trivial
    · exact rfl
  · exact rfl

theorem exitsWithOne_runHandler (env : Env) (a : Nat) (z : MemoryZone)
    (ctx : SigContext) : exitsWithOne (runHandler env a z ctx) := by
  unfold runHandler
  split
  · exact exitsWithOne_default_handler env a z ctx
  · exact trivial

theorem exitsWithOne_try_munprotect (env : Env) (a : Nat)
    (zones : List MemoryZone) (ctx : SigContext) :
    exitsWithOne (try_munprotect env a zones ctx) := by
  induction zones with
  | nil => exact trivial
  | cons z rest ih =>
    simp only [try_munprotect]
    split
    · cases hr : runHandler env a z ctx with
      | ret p =>
        obtain ⟨b, z2⟩ := p
        exact trivial
      | exits s o =>
        have hx := exitsWithOne_runHandler env a z ctx
        rw [hr] at hx
        exact hx
    · cases hrec : try_munprotect env a rest ctx with
      | ret p =>
        obtain ⟨b, r2⟩ := p
        exact trivial
      | exits s o =>
        rw [hrec] at ih
        exact ih

theorem exitsWithOne_setup_signal (env : Env) :
    exitsWithOne (setup_signal env) := by
  unfold setup_signal
  split
  · exact rfl
  · split
    · exact rfl
    · split
      · exact rfl
      · exact trivial

theorem exitsWithOne_complex_segvhandler (env : Env) (sig : Nat)
    (info : Option SigInfo) (zones : List MemoryZone) (ctx : SigContext) :
    exitsWithOne (complex_segvhandler env sig info zones ctx) := by
  unfold complex_segvhandler
  split
  next => exact rfl
  next i =>
    split
    next => exact rfl
    next =>
      cases htr : try_munprotect env i.si_addr zones ctx with
      | ret p =>
        obtain ⟨b, zs⟩ := p
        cases b
        · exact rfl
        · exact trivial
      | exits s o =>
        have hx := exitsWithOne_try_munprotect env i.si_addr zones ctx
        rw [htr] at hx
        exact hx

theorem bushandler_status (env : Env) (sig : Nat) (info : Option SigInfo)
    (ctx : SigContext) : (complex_bushandler env sig info ctx).2 = 1 := by
  unfold complex_bushandler
  split
  next => rfl
  next =>
    split
    next => rfl
    next => rfl

/-- C7: every process-terminating path of the subsystem (the abort path,
the growth handler's failure branches, the router, the signal handlers
and `setup_signal`) exits with status 1, and no path of the subsystem
exits with any other status. -/
theorem subsystem_exit_status (env : Env) (ctx : SigContext) (msg : String)
    (dump : Bool) (a : Nat) (z : MemoryZone) (zones : List MemoryZone)
    (sig : Nat) (info : Option SigInfo) :
    (fatal_abort env ctx msg dump).2 = 1 ∧
    exitsWithOne (default_handler env a z ctx) ∧
    exitsWithOne (null_handler env a z ctx) ∧
    exitsWithOne (try_munprotect env a zones ctx) ∧
    exitsWithOne (setup_signal env) ∧
    exitsWithOne (complex_segvhandler env sig info zones ctx) ∧
    (complex_bushandler env sig info ctx).2 = 1 :=
  ⟨rfl, exitsWithOne_default_handler env a z ctx, trivial,
   exitsWithOne_try_munprotect env a zones ctx,
   exitsWithOne_setup_signal env,
   exitsWithOne_complex_segvhandler env sig info zones ctx,
   bushandler_status env sig info ctx⟩

/-- C6 counterexample: `fatal_abort` does not emit the faulting address.
The overflow invocation for a fault at 0x9000 (zone `"detstack"#0`, PC
0x1234 extractable) writes exactly the overflow message, the PC line and
the stack-dump hint — no `address involved` line for the faulting
address appears (and `fatal_abort` is not even passed the address). -/
theorem fatal_abort_omits_address :
    default_handler envA 0x9000 zoneA (some 0x1234) =
      .exits 1 (fatal_abort envA (some 0x1234)
        "\nMercury runtime: memory zone detstack#0 overflowed\n" true).1 ∧
    (fatal_abort envA (some 0x1234)
        "\nMercury runtime: memory zone detstack#0 overflowed\n" true).1 =
      ["\nMercury runtime: memory zone detstack#0 overflowed\n",
       "PC at signal: 4660 (1234)\n",
       "You can get a stack dump by using `--low-level-debug\x27\n"] ∧
    addressLine 0x9000 ∉ (fatal_abort envA (some 0x1234)
        "\nMercury runtime: memory zone detstack#0 overflowed\n" true).1 := by
  refine ⟨by decide, by decide, by decide⟩

/-- C6 (amended): `fatal_abort` terminates with status 1 after emitting
the given message first and then, when a program counter is extractable
from the context, the program-counter line (followed by the trace report
and the optional stack dump); the faulting address is not among what it
emits. -/
theorem fatal_abort_emits (env : Env) (ctx : SigContext) (msg : String)
    (dump : Bool) :
    (fatal_abort env ctx msg dump).2 = 1 ∧
    (fatal_abort env ctx msg dump).1.head? = some msg ∧
    (∀ pc, ctx = some pc →
      (fatal_abort env ctx msg dump).1.get? 1 =
        some ("PC at signal: " ++ toString pc ++ " (" ++ hexStr pc ++ ")\n")) := by
  refine ⟨rfl, rfl, ?_⟩
  intro pc hpc
  subst hpc
  rfl

/-- C6 witness: a concrete invocation with extractable PC 0x1234. -/
theorem fatal_abort_emits_witness :
    (fatal_abort envA (some 0x1234) "boom\n" false).2 = 1 ∧
    (fatal_abort envA (some 0x1234) "boom\n" false).1.head? = some "boom\n" ∧
    (fatal_abort envA (some 0x1234) "boom\n" false).1.get? 1 =
      some ("PC at signal: " ++ toString (0x1234 : Nat) ++ " ("
        ++ hexStr 0x1234 ++ ")\n") :=
  ⟨(fatal_abort_emits envA (some 0x1234) "boom\n" false).1,
   (fatal_abort_emits envA (some 0x1234) "boom\n" false).2.1,
   (fatal_abort_emits envA (some 0x1234) "boom\n" false).2.2 0x1234 rfl⟩

theorem rle_cons_eq (x : String) (xs : List String) :
    rle (x :: xs) =
      match rle xs with
      | [] => [(x, 1)]
      | (y, c) :: tl =>
        if x = y then (y, c + 1) :: tl else (x, 1) :: (y, c) :: tl := rfl

theorem rle_cons (x : String) (xs : List String) :
    rle (x :: xs) = (x, countRun x xs + 1) :: rle (xs.drop (countRun x xs)) := by
  induction xs generalizing x with
  | nil => rfl
  | cons t rest ih =>
    by_cases hxt : x = t
    · subst hxt
      have hcr : countRun x (x :: rest) = countRun x rest + 1 := by
        simp [countRun]
      rw [hcr, List.drop_succ_cons, rle_cons_eq, ih x]
      simp
    · have hcr : countRun x (t :: rest) = 0 := by
        simp [countRun, Ne.symm hxt]
      rw [hcr, List.drop_zero, rle_cons_eq, ih t]
      simp [hxt]

theorem dumpLines_eq_rle (l : List String) :
    dumpLines l = (rle l).map fmtRun := by
  have H : ∀ (n : Nat) (l : List String), l.length ≤ n →
      dumpLines l = (rle l).map fmtRun := by
    intro n
    induction n with
    | zero =>
      intro l hl
      have hnil : l = [] := List.eq_nil_of_length_eq_zero (Nat.le_zero.mp hl)
      subst hnil
      simp [dumpLines, rle]
    | succ n ih =>
      intro l hl
      cases l with
      | nil => simp [dumpLines, rle]
      | cons s rest =>
        rw [rle_cons, List.map_cons]
        have hd : dumpLines (s :: rest) =
            (if countRun s rest + 1 > 1 then
               s ++ " * " ++ toString (countRun s rest + 1) ++ "\n"
             else
               s ++ "\n")
              :: dumpLines (rest.drop (countRun s rest)) := by
          simp only [dumpLines]
        rw [hd]
        congr 1
        have hlen : (rest.drop (countRun s rest)).length ≤ n := by
          have hr : rest.length ≤ n := by
            simp only [List.length_cons] at hl
            omega
          rw [List.length_drop]
          omega
        exact ih _ hlen
  exact H l.length l (le_refl _)

/-- C8: in debug-dump builds, the stack-dump emitter prints the recorded
labels in order with every maximal run of consecutive identical labels
collapsed to `"<label> * <count>"` (length-1 runs printed bare), between
the header and trailer lines; without the capability it prints the
one-line hint. -/
theorem print_dump_stack_spec (env : Env) :
    (env.lowLevelDebug = true →
      print_dump_stack env =
        "A dump of the det stack follows\n\n"
          :: ((rle env.dumpLabels).map fmtRun ++ ["\nend of stack dump\n"])) ∧
    (env.lowLevelDebug = false →
      print_dump_stack env =
        ["You can get a stack dump by using `--low-level-debug\x27\n"]) := by
  constructor
  · intro hdbg
    unfold print_dump_stack
    rw [if_pos hdbg, dumpLines_eq_rle]
  · intro hdbg
    unfold print_dump_stack
    rw [if_neg (by simp [hdbg])]

/-- C8 witness: the history `foo foo foo bar foo` is emitted as
`foo * 3`, `bar`, `foo`; a build without the capability emits the
hint. -/
theorem print_dump_stack_spec_witness :
    envD.lowLevelDebug = true ∧
    print_dump_stack envD =
      ["A dump of the det stack follows\n\n", "foo * 3\n", "bar\n",
       "foo\n", "\nend of stack dump\n"] ∧
    envA.lowLevelDebug = false ∧
    print_dump_stack envA =
      ["You can get a stack dump by using `--low-level-debug\x27\n"] := by
  refine ⟨rfl, ?_, rfl, (print_dump_stack_spec envA).2 rfl⟩
  have h := (print_dump_stack_spec envD).1 rfl
  rw [h]
  decide

end Mercury
